import Mathlib

/-!
Shallow embedding of the filename-to-nfo program (src/main.py): the
directory/file name classifiers, the identifier derivation, the descriptor
builder, the pretty-printing serializer and the per-file driver step,
together with theorems checking the specification's claims.
-/

/-! ## Character classes

The Python regexes run under re.IGNORECASE on str input.  We model the ASCII
fragment of the Unicode classes \d, \w, \s (the program's inputs of interest
are ASCII file and directory names). -/

/-- ASCII lowercasing, modelling re.IGNORECASE and str.lower on ASCII input. -/
def lowerChar (c : Char) : Char :=
  if 65 ≤ c.toNat ∧ c.toNat ≤ 90 then Char.ofNat (c.toNat + 32) else c

/-- Regex class \d (ASCII fragment). -/
def isDigitChar (c : Char) : Bool := c.isDigit

/-- Regex class \w (ASCII fragment): letters, digits, underscore. -/
def isWordChar (c : Char) : Bool := c.isAlpha || c.isDigit || c == '_'

/-- Regex class \W. -/
def isNonWordChar (c : Char) : Bool := !isWordChar c

/-- Regex class \s (ASCII fragment). -/
def isSpaceChar (c : Char) : Bool :=
  c == ' ' || c == '\t' || c == '\n' || c == '\r' || c == '\x0b' || c == '\x0c'

/-- Regex `.` without DOTALL: any character except a newline. -/
def notNewlineChar (c : Char) : Bool := c != '\n'

/-! ## Regular-pattern matcher

Every quantifier in the source's regexes applies to a single-character class,
so each pattern is a plain sequence of the atoms below.  Matching is greedy
with backtracking and anchored at the start of the input: the program always
uses `regex.match`, never `regex.search`. -/

/-- Named captures produced by a match: (group name, matched text). -/
abbrev Caps := List (String × String)

/-- One atom of a compiled pattern. -/
inductive Item where
  /-- a single character from a class -/
  | one (p : Char → Bool)
  /-- greedy `p{mn,}` (or `p{mn,mx}` when `mx` is given), optionally capturing -/
  | many (p : Char → Bool) (mn : Nat) (mx : Option Nat) (grp : Option String)
  /-- a case-insensitive literal, optionally capturing -/
  | lit (s : List Char) (grp : Option String)
  /-- `$` : end of input or just before a final newline (no MULTILINE) -/
  | eos

/-- Record a capture for group `grp` (if named) over the consumed text. -/
def addCap (grp : Option String) (txt : List Char) (caps : Caps) : Caps :=
  match grp with
  | some g => (g, String.mk txt) :: caps
  | none => caps

/-- Strip a case-insensitive literal prefix, returning the rest of the input. -/
def stripCiPrefix : List Char → List Char → Option (List Char)
  | [], cs => some cs
  | _ :: _, [] => none
  | p :: ps, c :: cs => if lowerChar p = lowerChar c then stripCiPrefix ps cs else none

/-- First success of `f` over a list of candidate lengths. -/
def pickFirst (f : Nat → Option Caps) : List Nat → Option Caps
  | [] => none
  | k :: ks =>
    match f k with
    | some r => some r
    | none => pickFirst f ks

/-- Backtracking matcher for a sequence of atoms, anchored at the start of the
input (re.match semantics).  Returns the named captures of the
leftmost-greedy match, or `none` when the pattern does not match.  A greedy
quantified class tries consuming `hi` characters, then `hi - 1`, ..., down to
its minimum; the first length for which the rest of the pattern matches
wins. -/
def matchItems : List Item → List Char → Option Caps
  | [], _ => some []
  | .one p :: items, cs =>
    match cs with
    | [] => none
    | c :: rest => if p c then matchItems items rest else none
  | .many p mn mx grp :: items, cs =>
    let run := (cs.takeWhile p).length
    let hi := match mx with | some m => Nat.min m run | none => run
    if hi < mn then none
    else
      pickFirst
        (fun k =>
          match matchItems items (cs.drop k) with
          | some caps => some (addCap grp (cs.take k) caps)
          | none => none)
        ((List.range (hi + 1 - mn)).map (fun j => hi - j))
  | .lit s grp :: items, cs =>
    match stripCiPrefix s cs with
    | some rest =>
      match matchItems items rest with
      | some caps => some (addCap grp (cs.take s.length) caps)
      | none => none
    | none => none
  | .eos :: items, cs =>
    if cs = [] ∨ cs = ['\n'] then matchItems items cs else none

/-- Try an ordered pattern list on the input; first match wins. -/
def firstMatch : List (List Item) → List Char → Option Caps
  | [], _ => none
  | r :: rs, cs =>
    match matchItems r cs with
    | some caps => some caps
    | none => firstMatch rs cs

/-- Look up a named group in the captures (mirrors `'name' in m.groupdict()`
followed by reading the value; in the source's patterns a group captures
whenever its pattern matches). -/
def lookupCap (caps : Caps) (k : String) : Option String :=
  (caps.find? (fun kv => kv.1 = k)).map (·.2)

/-- Python int() on a captured all-digit string (the only strings the program
converts), as a decimal number. -/
def strToNat (s : String) : Nat :=
  s.toList.foldl (fun n c => n * 10 + (c.toNat - 48)) 0

/-! ## DirectoryParser (src/main.py lines 170-220) -/

/-- Pattern 1: `^(?P<seasonNumber>\d+)`. -/
def dirRegex1 : List Item :=
  [.many isDigitChar 1 none (some "seasonNumber")]

/-- Pattern 2: `\W+\s+(?P<seasonNumber>\d+)$` (anchored at the start by
regex.match). -/
def dirRegex2 : List Item :=
  [.many isNonWordChar 1 none none,
   .many isSpaceChar 1 none none,
   .many isDigitChar 1 none (some "seasonNumber"),
   .eos]

/-- Pattern 3: `^(?P<seasonSpecials>Specials)`, case-insensitive. -/
def dirRegex3 : List Item :=
  [.lit "Specials".toList (some "seasonSpecials")]

/-- The character class `[Season|Lesson|Chapter|Part]` of pattern 4: one single
character drawn from the letters of those words or `|`, case-insensitively. -/
def seasonClassChar (c : Char) : Bool :=
  lowerChar c ∈ ['s', 'e', 'a', 'o', 'n', '|', 'l', 'c', 'h', 'p', 't', 'r']

/-- Pattern 4: `^[Season|Lesson|Chapter|Part]\W+\s+(?P<seasonNumber>\d+)`. -/
def dirRegex4 : List Item :=
  [.one seasonClassChar,
   .many isNonWordChar 1 none none,
   .many isSpaceChar 1 none none,
   .many isDigitChar 1 none (some "seasonNumber")]

def dirRegexes : List (List Item) := [dirRegex1, dirRegex2, dirRegex3, dirRegex4]

/-- DirectoryParser.parse: first matching pattern wins; a `seasonNumber` group
is converted with int(); a `seasonSpecials` group forces season 0; no match
leaves the season unresolved. -/
def DirectoryParser.parse (directory : String) : Option Nat :=
  match firstMatch dirRegexes directory.toList with
  | none => none
  | some caps =>
    let fromNumber :=
      match lookupCap caps "seasonNumber" with
      | some v => some (strToNat v)
      | none => none
    match lookupCap caps "seasonSpecials" with
    | some _ => some 0
    | none => fromNumber

/-! ## FileParser (src/main.py lines 223-286) -/

/-- The class `[-\.x]` (IGNORECASE makes it also match `X`). -/
def sepDashDotX (c : Char) : Bool := c == '-' || c == '.' || c == 'x' || c == 'X'

/-- Pattern 1:
`^(?P<seasonNumber>\d+)[-\.x](?P<episodeNumber>\d{2,})\W*\s*(?P<episodeTitle>.+)$`. -/
def fileRegex1 : List Item :=
  [.many isDigitChar 1 none (some "seasonNumber"),
   .one sepDashDotX,
   .many isDigitChar 2 none (some "episodeNumber"),
   .many isNonWordChar 0 none none,
   .many isSpaceChar 0 none none,
   .many notNewlineChar 1 none (some "episodeTitle"),
   .eos]

/-- Pattern 2: `^(?P<episodeNumber>\d{2,})\W*\s*(?P<episodeTitle>.+)$`. -/
def fileRegex2 : List Item :=
  [.many isDigitChar 2 none (some "episodeNumber"),
   .many isNonWordChar 0 none none,
   .many isSpaceChar 0 none none,
   .many notNewlineChar 1 none (some "episodeTitle"),
   .eos]

/-- Pattern 3:
`s(?P<seasonNumber>\d{2,})e(?P<episodeNumber>\d{2,})\s?\W*\s*(?P<episodeTitle>.+)$`
(no `^`, but regex.match anchors it at the start of the string anyway). -/
def fileRegex3 : List Item :=
  [.one (fun c => c == 's' || c == 'S'),
   .many isDigitChar 2 none (some "seasonNumber"),
   .one (fun c => c == 'e' || c == 'E'),
   .many isDigitChar 2 none (some "episodeNumber"),
   .many isSpaceChar 0 (some 1) none,
   .many isNonWordChar 0 none none,
   .many isSpaceChar 0 none none,
   .many notNewlineChar 1 none (some "episodeTitle"),
   .eos]

def fileRegexes : List (List Item) := [fileRegex1, fileRegex2, fileRegex3]

/-- Result of FileParser.parse. -/
structure FileParseResult where
  seasonNumber : Option Nat
  episodeNumber : Option Nat
  episodeTitle : Option String
  deriving DecidableEq, Repr

/-- FileParser.parse: resets to the caller-supplied defaults, then applies the
first matching pattern's groups (season and title only when that pattern has
the group; the episode number starts unresolved). -/
def FileParser.parse (file : String) (defaultTitle : Option String)
    (defaultSeason : Option Nat) : FileParseResult :=
  match firstMatch fileRegexes file.toList with
  | none =>
    { seasonNumber := defaultSeason, episodeNumber := none,
      episodeTitle := defaultTitle }
  | some caps =>
    { seasonNumber :=
        match lookupCap caps "seasonNumber" with
        | some v => some (strToNat v)
        | none => defaultSeason
      episodeNumber := (lookupCap caps "episodeNumber").map strToNat
      episodeTitle :=
        match lookupCap caps "episodeTitle" with
        | some v => some v
        | none => defaultTitle }

/-! ## Path helpers (os.path on POSIX) -/

/-- str.startswith, over characters. -/
def strStartsWith (s p : String) : Bool := p.toList.isPrefixOf s.toList

/-- str.endswith, over characters. -/
def strEndsWith (s p : String) : Bool := p.toList.reverse.isPrefixOf s.toList.reverse

/-- os.path.join on POSIX, for the two-argument calls the program makes. -/
def ospathJoin (a b : String) : String :=
  if strStartsWith b "/" then b
  else if a = "" ∨ strEndsWith a "/" then a ++ b
  else a ++ "/" ++ b

/-- str.split(sep) over characters: the segments between separators, empties
preserved (an empty input yields one empty segment, as in Python). -/
def splitOnCharAux (sep : Char) : List Char → List Char → List (List Char)
  | [], acc => [acc.reverse]
  | c :: cs, acc =>
    if c = sep then acc.reverse :: splitOnCharAux sep cs []
    else splitOnCharAux sep cs (c :: acc)

/-- path.split('/'). -/
def splitSlash (s : String) : List String :=
  (splitOnCharAux '/' s.toList []).map String.mk

/-- '/'.join(parts). -/
def joinSlash : List String → String
  | [] => ""
  | [x] => x
  | x :: xs => x ++ "/" ++ joinSlash xs

/-- posixpath.normpath: collapse repeated separators and up-level
references. -/
def normpath (path : String) : String :=
  if path = "" then "."
  else
    let initialSlashes : Nat :=
      if strStartsWith path "/" then
        if strStartsWith path "//" && !strStartsWith path "///" then 2 else 1
      else 0
    let comps := splitSlash path
    let newComps := comps.foldl
      (fun acc comp =>
        if comp = "" ∨ comp = "." then acc
        else if comp ≠ ".." ∨ (initialSlashes = 0 ∧ acc = []) ∨
                acc.getLast? = some ".." then acc ++ [comp]
        else if acc ≠ [] then acc.dropLast
        else acc)
      []
    let joined := joinSlash newComps
    let res :=
      (if initialSlashes = 2 then "//" else if initialSlashes = 1 then "/" else "")
        ++ joined
    if res = "" then "." else res

/-- posixpath.abspath, with the ambient working directory passed explicitly
(the program reads it from the process state). -/
def abspath (cwd path : String) : String :=
  normpath (if strStartsWith path "/" then path else ospathJoin cwd path)

/-- Index of the last occurrence of `c` in `cs` (str.rfind, none for absent). -/
def rfindIdx (cs : List Char) (c : Char) : Option Nat :=
  ((cs.enum.filter (fun ic => ic.2 == c)).getLast?).map (·.1)

/-- os.path.splitext on POSIX: split off the extension at the last dot, unless
every character between the last path separator and that dot is itself a dot
(leading dots do not start an extension). -/
def splitext (p : String) : String × String :=
  let cs := p.toList
  let sepIdx : Option Nat := rfindIdx cs '/'
  let dotIdx : Option Nat := rfindIdx cs '.'
  match dotIdx with
  | none => (p, "")
  | some di =>
    let start := match sepIdx with | some si => si + 1 | none => 0
    if (match sepIdx with | some si => decide (si < di) | none => true) then
      if ((List.range (di - start)).map (fun j => start + j)).any
          (fun j => cs.getD j '.' != '.') then
        (String.mk (cs.take di), String.mk (cs.drop di))
      else (p, "")
    else (p, "")

/-- str.lower (ASCII fragment). -/
def lowerStr (s : String) : String := String.mk (s.toList.map lowerChar)

/-- str.strip() with no argument: drop leading and trailing whitespace (ASCII
fragment). -/
def pyStrip (s : String) : String :=
  String.mk ((s.toList.dropWhile isSpaceChar).reverse.dropWhile isSpaceChar).reverse

/-! ## EpisodeEntity (src/main.py lines 41-70) -/

/-- The episode record.  The stored fields are the ones the property setters
produce: a stripped title, and int()-normalized numbers (identities on the
all-digit captures the parsers supply). -/
structure EpisodeEntity where
  episodeTitle : Option String
  episodeNumber : Option Nat
  seasonNumber : Option Nat
  deriving DecidableEq, Repr

/-- Populate an EpisodeEntity from classifier output the way the main loop
does, applying the setters' normalization on assignment. -/
def mkEpisodeEntity (fp : FileParseResult) : EpisodeEntity :=
  { episodeTitle := fp.episodeTitle.map pyStrip
    episodeNumber := fp.episodeNumber
    seasonNumber := fp.seasonNumber }

/-! ## MD5 (hashlib.md5, RFC 1321) over byte lists

Bytes are naturals below 256 and 32-bit words naturals below 2^32, with
explicit reduction mod 2^32 where overflow matters. -/

def M32 : Nat := 4294967296

def add32 (a b : Nat) : Nat := (a + b) % M32

def not32 (a : Nat) : Nat := 4294967295 ^^^ (a % M32)

def rotl32 (x s : Nat) : Nat :=
  (((x % M32) * 2 ^ s) % M32) ||| ((x % M32) / 2 ^ (32 - s))

def mF (b c d : Nat) : Nat := (b &&& c) ||| (not32 b &&& d)
def mG (b c d : Nat) : Nat := (d &&& b) ||| (not32 d &&& c)
def mH (b c d : Nat) : Nat := b ^^^ c ^^^ d
def mI (b c d : Nat) : Nat := c ^^^ (b ||| not32 d)

/-- The 64 sine-derived round constants of MD5. -/
def mdK : List Nat :=
  [0xd76aa478, 0xe8c7b756, 0x242070db, 0xc1bdceee,
   0xf57c0faf, 0x4787c62a, 0xa8304613, 0xfd469501,
   0x698098d8, 0x8b44f7af, 0xffff5bb1, 0x895cd7be,
   0x6b901122, 0xfd987193, 0xa679438e, 0x49b40821,
   0xf61e2562, 0xc040b340, 0x265e5a51, 0xe9b6c7aa,
   0xd62f105d, 0x02441453, 0xd8a1e681, 0xe7d3fbc8,
   0x21e1cde6, 0xc33707d6, 0xf4d50d87, 0x455a14ed,
   0xa9e3e905, 0xfcefa3f8, 0x676f02d9, 0x8d2a4c8a,
   0xfffa3942, 0x8771f681, 0x6d9d6122, 0xfde5380c,
   0xa4beea44, 0x4bdecfa9, 0xf6bb4b60, 0xbebfbc70,
   0x289b7ec6, 0xeaa127fa, 0xd4ef3085, 0x04881d05,
   0xd9d4d039, 0xe6db99e5, 0x1fa27cf8, 0xc4ac5665,
   0xf4292244, 0x432aff97, 0xab9423a7, 0xfc93a039,
   0x655b59c3, 0x8f0ccc92, 0xffeff47d, 0x85845dd1,
   0x6fa87e4f, 0xfe2ce6e0, 0xa3014314, 0x4e0811a1,
   0xf7537e82, 0xbd3af235, 0x2ad7d2bb, 0xeb86d391]

/-- The 64 per-round left-rotation amounts of MD5. -/
def mdS : List Nat :=
  [7, 12, 17, 22, 7, 12, 17, 22, 7, 12, 17, 22, 7, 12, 17, 22,
   5, 9, 14, 20, 5, 9, 14, 20, 5, 9, 14, 20, 5, 9, 14, 20,
   4, 11, 16, 23, 4, 11, 16, 23, 4, 11, 16, 23, 4, 11, 16, 23,
   6, 10, 15, 21, 6, 10, 15, 21, 6, 10, 15, 21, 6, 10, 15, 21]

/-- A 32-bit word as 4 little-endian bytes. -/
def le4 (x : Nat) : List Nat :=
  [x % 256, x / 256 % 256, x / 65536 % 256, x / 16777216 % 256]

/-- A 64-bit value as 8 little-endian bytes. -/
def le8 (x : Nat) : List Nat := le4 (x % M32) ++ le4 (x / M32)

/-- RFC 1321 padding: append 0x80, zero-pad so the length is 56 mod 64, then
append the original length in bits as 8 little-endian bytes. -/
def md5Pad (msg : List Nat) : List Nat :=
  let len := msg.length
  msg ++ [128] ++ List.replicate ((120 - (len + 1) % 64) % 64) 0
    ++ le8 (8 * len % (M32 * M32))

/-- Groups of 4 little-endian bytes as 32-bit words. -/
def bytesToWords : List Nat → List Nat
  | b0 :: b1 :: b2 :: b3 :: rest =>
    (b0 + b1 * 256 + b2 * 65536 + b3 * 16777216) :: bytesToWords rest
  | _ => []

/-- One of the 64 MD5 rounds on state (a, b, c, d) with message words `w`. -/
def md5Round (w : List Nat) (st : Nat × Nat × Nat × Nat) (i : Nat) :
    Nat × Nat × Nat × Nat :=
  let (a, b, c, d) := st
  let fg : Nat × Nat :=
    if i < 16 then (mF b c d, i)
    else if i < 32 then (mG b c d, (5 * i + 1) % 16)
    else if i < 48 then (mH b c d, (3 * i + 5) % 16)
    else (mI b c d, (7 * i) % 16)
  let t := add32 (add32 (add32 fg.1 a) (mdK.getD i 0)) (w.getD fg.2 0)
  (d, add32 b (rotl32 t (mdS.getD i 0)), b, c)

/-- The MD5 compression function on one 64-byte block. -/
def md5Compress (st : Nat × Nat × Nat × Nat) (block : List Nat) :
    Nat × Nat × Nat × Nat :=
  let w := bytesToWords block
  let r := (List.range 64).foldl (md5Round w) st
  (add32 st.1 r.1, add32 st.2.1 r.2.1, add32 st.2.2.1 r.2.2.1,
   add32 st.2.2.2 r.2.2.2)

/-- MD5 over a padded message, block by block (the padded length is a multiple
of 64, so indexing the blocks by number is exact). -/
def md5Main (msg : List Nat) : Nat × Nat × Nat × Nat :=
  let padded := md5Pad msg
  (List.range (padded.length / 64)).foldl
    (fun st i => md5Compress st ((padded.drop (64 * i)).take 64))
    (0x67452301, 0xefcdab89, 0x98badcfe, 0x10325476)

/-- The 16-byte MD5 digest. -/
def md5Bytes (msg : List Nat) : List Nat :=
  let h := md5Main msg
  le4 h.1 ++ le4 h.2.1 ++ le4 h.2.2.1 ++ le4 h.2.2.2

/-- The sixteen lowercase hexadecimal digits. -/
def hexChars : List Char := "0123456789abcdef".toList

/-- The hex digit of a nibble (its argument is below 16 at every use; the
reduction mod 16 makes that explicit). -/
def nthHex (n : Nat) : Char := hexChars.getD (n % 16) '0'

/-- A byte as two lowercase hex characters, high nibble first. -/
def toHex2 (b : Nat) : List Char := [nthHex (b / 16), nthHex b]

/-- hashlib.md5(bytes).hexdigest(): the lowercase hexadecimal digest. -/
def md5Hexdigest (bs : List Nat) : String :=
  String.mk ((md5Bytes bs).flatMap toHex2)

/-- UTF-8 encoding of one character. -/
def utf8EncodeChar (c : Char) : List Nat :=
  let n := c.toNat
  if n < 128 then [n]
  else if n < 2048 then [192 + n / 64, 128 + n % 64]
  else if n < 65536 then [224 + n / 4096, 128 + n / 64 % 64, 128 + n % 64]
  else [240 + n / 262144, 128 + n / 4096 % 64, 128 + n / 64 % 64, 128 + n % 64]

/-- str.encode('utf-8') as a byte list. -/
def utf8Encode (s : String) : List Nat := s.toList.flatMap utf8EncodeChar

/-- EpisodeNfo.generateId (src/main.py lines 125-134): hash of the
policy-selected source string.  The ambient working directory `cwd` is passed
explicitly to model os.path.abspath. -/
def generateId (cwd dirName fileRoot fileExtension uniqueIdSource : String) :
    String :=
  let source :=
    if uniqueIdSource = "filename" then fileRoot ++ fileExtension
    else if uniqueIdSource = "absolute" then
      abspath cwd (ospathJoin dirName (fileRoot ++ fileExtension))
    else ospathJoin dirName (fileRoot ++ fileExtension)
  md5Hexdigest (utf8Encode source)

/-! ## XML element trees (the xml.etree.ElementTree fragment the program uses) -/

/-- An XML element: tag, attributes in insertion order, text, children, tail
(mirroring xml.etree.ElementTree.Element). -/
inductive Elem where
  | mk (tag : String) (attrib : List (String × String)) (text : Option String)
      (children : List Elem) (tail : Option String)

def Elem.tag : Elem → String
  | .mk t _ _ _ _ => t

def Elem.attrib : Elem → List (String × String)
  | .mk _ a _ _ _ => a

def Elem.text : Elem → Option String
  | .mk _ _ x _ _ => x

def Elem.children : Elem → List Elem
  | .mk _ _ _ c _ => c

def Elem.tail : Elem → Option String
  | .mk _ _ _ _ t => t

/-- ET._escape_cdata: escape &, <, > in character data (the source's ordered
replacements are equivalent to this per-character map). -/
def escapeCdata (s : String) : String :=
  String.mk (s.toList.flatMap (fun c =>
    if c = '&' then "&amp;".toList
    else if c = '<' then "&lt;".toList
    else if c = '>' then "&gt;".toList
    else [c]))

/-- ET._escape_attrib: escape &, <, >, double quote and the whitespace
controls in attribute values (again as the equivalent per-character map). -/
def escapeAttrib (s : String) : String :=
  String.mk (s.toList.flatMap (fun c =>
    if c = '&' then "&amp;".toList
    else if c = '<' then "&lt;".toList
    else if c = '>' then "&gt;".toList
    else if c = '"' then "&quot;".toList
    else if c = '\r' then "&#13;".toList
    else if c = '\n' then "&#10;".toList
    else if c = '\t' then "&#09;".toList
    else [c]))

/-- The attribute items rendered in insertion order, each as
` key="escaped value"`. -/
def serializeAttribs : List (String × String) → String
  | [] => ""
  | (k, v) :: rest => " " ++ k ++ "=\"" ++ escapeAttrib v ++ "\"" ++ serializeAttribs rest

mutual

/-- ET._serialize_xml for method 'xml' without namespaces, specialized to the
short_empty_elements=False the program always passes: every element renders
as an explicit open/close tag pair around its text and children, then its
tail.  Absent (None) text or tail renders as nothing, exactly like the empty
string the falsy test also skips. -/
def serializeElem : Elem → String
  | .mk tag attrib text children tail =>
    "<" ++ tag ++ serializeAttribs attrib ++ ">"
      ++ escapeCdata (text.getD "")
      ++ serializeChildren children
      ++ "</" ++ tag ++ ">"
      ++ escapeCdata (tail.getD "")

def serializeChildren : List Elem → String
  | [] => ""
  | c :: cs => serializeElem c ++ serializeChildren cs

end

/-- ET.tostring(tree, encoding='utf-8', short_empty_elements=False), decoded
back to text.  With the lowercase encoding name 'utf-8' the library writes no
XML declaration of its own, so this is exactly the serialized element. -/
def tostring (root : Elem) : String := serializeElem root

/-! ## EpisodeNfo (src/main.py lines 73-167) -/

/-- EpisodeNfo.DECLARATION. -/
def DECLARATION : String :=
  "<?xml version=\"1.0\" encoding=\"UTF-8\" standalone=\"yes\" ?>"

/-- EpisodeNfo.EXTENSION. -/
def EXTENSION : String := ".nfo"

/-- The constructor arguments of one EpisodeNfo, plus the ambient working
directory (read by os.path.abspath from the process state). -/
structure NfoConfig where
  cwd : String
  dirName : String
  fileRoot : String
  fileExtension : String
  emptyElements : Bool
  extraElements : List String
  uniqueIdSource : String
  uniqueIdType : String

/-- EpisodeNfo.basename: the expected descriptor file name. -/
def NfoConfig.basename (cfg : NfoConfig) : String := cfg.fileRoot ++ EXTENSION

/-- EpisodeNfo.path: where the descriptor is written. -/
def NfoConfig.path (cfg : NfoConfig) : String :=
  ospathJoin cfg.dirName (cfg.fileRoot ++ EXTENSION)

/-- The subelements EpisodeNfo.buildNfo attaches to the root, in order:
title always; season and episode under the emission policy, with the number
as decimal text or the empty string; uniqueid always, carrying the type
attribute and the derived identifier; then, only under the policy, one empty
element per configured extra name. -/
def buildNfoChildren (cfg : NfoConfig) (episode : EpisodeEntity) : List Elem :=
  [Elem.mk "title" [] episode.episodeTitle [] none]
    ++ (if cfg.emptyElements || episode.seasonNumber.isSome then
          [Elem.mk "season" []
            (some (match episode.seasonNumber with
                   | some n => toString n
                   | none => "")) [] none]
        else [])
    ++ (if cfg.emptyElements || episode.episodeNumber.isSome then
          [Elem.mk "episode" []
            (some (match episode.episodeNumber with
                   | some n => toString n
                   | none => "")) [] none]
        else [])
    ++ [Elem.mk "uniqueid" [("type", cfg.uniqueIdType)]
          (some (generateId cfg.cwd cfg.dirName cfg.fileRoot
            cfg.fileExtension cfg.uniqueIdSource)) [] none]
    ++ (if cfg.emptyElements then
          cfg.extraElements.map (fun el => Elem.mk el [] none [] none)
        else [])

/-- EpisodeNfo.buildNfo (src/main.py lines 102-123).  The method reads the
module-global `episode` for the season/episode conditions and
`self.episode` for the title; in the driver loop both name the same record,
passed here once as `episode`. -/
def buildNfo (cfg : NfoConfig) (episode : EpisodeEntity) : Elem :=
  Elem.mk "episodedetails" [] none (buildNfoChildren cfg episode) none

/-- The text/tail values _prettify assigns: a newline followed by two spaces
per depth level ("\n" + "  " * depth). -/
def nlind (depth : Nat) : String :=
  "\n" ++ String.mk (List.replicate (2 * depth) ' ')

/-- Replace an element's tail (the only field _prettify writes on a child). -/
def withTail : Elem → Option String → Elem
  | .mk t a x c _, u => .mk t a x c u

/-- The tails _prettify gives the children of a node at depth `depth`: each
child but the last is followed by a newline indented one level deeper, the
last by a newline indented to the parent's depth. -/
def setTails (depth : Nat) : List Elem → List Elem
  | [] => []
  | [e] => [withTail e (some (nlind depth))]
  | e :: rest => withTail e (some (nlind (depth + 1))) :: setTails depth rest

mutual

/-- EpisodeNfo._prettify as a pure function of the tree and current depth: for
a node with children it sets the node's text to a newline indented one level
deeper, recurses into the children, and rewrites their tails.  The in-place
assignments of the source depend only on the tree structure and the depth,
never on existing text or tail values, so this captures the mutation
exactly. -/
def prettify : Elem → Nat → Elem
  | .mk tag attrib text [] tail, _ => .mk tag attrib text [] tail
  | .mk tag attrib _ (c :: cs) tail, depth =>
    .mk tag attrib (some (nlind (depth + 1)))
      (setTails depth (prettifyChildren (c :: cs) (depth + 1)))
      tail

def prettifyChildren : List Elem → Nat → List Elem
  | [], _ => []
  | c :: cs, depth => prettify c depth :: prettifyChildren cs depth

end

/-- The string EpisodeNfo.export computes for a tree: the fixed declaration, a
newline, then the prettified tree's serialization.  (export also leaves the
stored tree mutated to `prettify tree 0`; writing the string and the
bookkeeping of the written list are modelled in the driver step below.) -/
def exportStr (tree : Elem) : String :=
  DECLARATION ++ "\n" ++ tostring (prettify tree 0)

/-- The one line a childless element occupies in the output: an explicit
open/close tag pair (never the self-closing shorthand) around its escaped
text. -/
def leafLine (c : Elem) : String :=
  "<" ++ c.tag ++ serializeAttribs c.attrib ++ ">"
    ++ escapeCdata (c.text.getD "") ++ "</" ++ c.tag ++ ">"

/-! ## The per-file driver step (src/main.py lines 292-345) -/

/-- The recognized video container extensions (module-global `containers`). -/
def containers : List String :=
  [".avchd",
   ".avi",
   ".flv", ".swf", ".f4v",
   ".mkv",
   ".mov", ".qt",
   ".mp4", ".m4p", ".m4v",
   ".mpg", ".mp2", ".mpeg", ".mpe", ".mpv",
   ".ogg",
   ".webm",
   ".wmv"]

/-- Run-level bookkeeping: the counter and lists the loop mutates. -/
structure RunState where
  total : Nat
  skipped : List String
  written : List String
  deriving DecidableEq, Repr

/-- What the loop body did for one file. -/
inductive FileOutcome where
  /-- skipped: the file has no dot-extension -/
  | noExtension
  /-- skipped silently: the file already bears the descriptor extension -/
  | isNfoFile
  /-- skipped: the extension is not a recognized container -/
  | unsupportedType
  /-- skipped and recorded: a descriptor already exists and overwrite is off -/
  | alreadyExists
  /-- a descriptor was built and its export attempted; carries the text -/
  | processed (xml : String)

/-- The run-level configuration resolved once at process start. -/
structure RunConfig where
  cwd : String
  overwrite : Bool
  outputEmptyElements : Bool
  extraElements : List String
  uniqueIdSource : String
  uniqueIdType : String

/-- One iteration of the inner file loop (src/main.py lines 298-345), for file
`file` of directory `root` whose listing is `files`, where `dirSeason` is the
season number the DirectoryParser resolved for `root`.  `writeOk` says
whether opening and writing the descriptor succeeds; `false` models the
IOError that export catches (logging a warning instead of raising), after
which the loop still appends the path to the written list and counts the
file. -/
def processFile (rc : RunConfig) (root : String) (files : List String)
    (dirSeason : Option Nat) (file : String) (writeOk : Bool)
    (st : RunState) : RunState × FileOutcome :=
  let fr := splitext file
  if fr.2.length = 0 then (st, .noExtension)
  else
    let fileExtension := lowerStr fr.2
    if fileExtension = EXTENSION then (st, .isNfoFile)
    else if ¬ (fileExtension ∈ containers) then (st, .unsupportedType)
    else
      let cfg : NfoConfig :=
        { cwd := rc.cwd, dirName := root, fileRoot := fr.1,
          fileExtension := fileExtension,
          emptyElements := rc.outputEmptyElements,
          extraElements := rc.extraElements,
          uniqueIdSource := rc.uniqueIdSource,
          uniqueIdType := rc.uniqueIdType }
      if ¬ rc.overwrite ∧ cfg.basename ∈ files then
        ({ st with skipped := st.skipped ++ [cfg.path] }, .alreadyExists)
      else
        let fp := FileParser.parse fr.1 (some fr.1) dirSeason
        let episode := mkEpisodeEntity fp
        let xml := exportStr (buildNfo cfg episode)
        let afterExport := if writeOk then st.written ++ [cfg.path] else st.written
        ({ st with written := afterExport ++ [cfg.path], total := st.total + 1 },
         .processed xml)


/-! ## Theorems: prettify is structure-driven and idempotent -/

theorem withTail_withTail (e : Elem) (u v : Option String) :
    withTail (withTail e u) v = withTail e v := by
  cases e; rfl

theorem setTails_cons (d : Nat) (e : Elem) (l : List Elem) :
    setTails d (e :: l) =
      withTail e (some (nlind (if l.isEmpty then d else d + 1)))
        :: setTails d l := by
  cases l <;> simp [setTails]

theorem setTails_eq_nil_iff (d : Nat) (l : List Elem) :
    setTails d l = [] ↔ l = [] := by
  cases l <;> simp [setTails, setTails_cons]

theorem setTails_isEmpty (d : Nat) (l : List Elem) :
    (setTails d l).isEmpty = l.isEmpty := by
  cases l <;> simp [setTails, setTails_cons]

theorem prettifyChildren_eq_nil_iff (l : List Elem) (d : Nat) :
    prettifyChildren l d = [] ↔ l = [] := by
  cases l <;> simp [prettifyChildren]

theorem prettifyChildren_isEmpty (l : List Elem) (d : Nat) :
    (prettifyChildren l d).isEmpty = l.isEmpty := by
  cases l <;> simp [prettifyChildren]

theorem prettify_withTail (e : Elem) (u : Option String) (d : Nat) :
    prettify (withTail e u) d = withTail (prettify e d) u := by
  cases e with
  | mk t a x cs tl => cases cs <;> simp [withTail, prettify]

theorem prettifyChildren_setTails (l : List Elem) (d0 d : Nat) :
    prettifyChildren (setTails d0 l) d = setTails d0 (prettifyChildren l d) := by
  induction l with
  | nil => simp [setTails, prettifyChildren]
  | cons e l ih =>
    simp only [setTails_cons, prettifyChildren, prettify_withTail, ih,
      prettifyChildren_isEmpty]

theorem setTails_setTails (d : Nat) (l : List Elem) :
    setTails d (setTails d l) = setTails d l := by
  induction l with
  | nil => simp [setTails]
  | cons e l ih =>
    simp only [setTails_cons, setTails_isEmpty, withTail_withTail, ih]

theorem prettify_mk_of_ne_nil (t : String) (a : List (String × String))
    (x : Option String) (l : List Elem) (tl : Option String) (d : Nat)
    (h : l ≠ []) :
    prettify (.mk t a x l tl) d =
      .mk t a (some (nlind (d + 1)))
        (setTails d (prettifyChildren l (d + 1))) tl := by
  cases l with
  | nil => exact absurd rfl h
  | cons c cs => rfl

mutual

theorem prettify_idem : (e : Elem) → (d : Nat) →
    prettify (prettify e d) d = prettify e d
  | .mk t a x [] tl, d => rfl
  | .mk t a x (c :: cs) tl, d => by
    have hch := prettifyChildren_idem (c :: cs) (d + 1)
    have hne : setTails d (prettifyChildren (c :: cs) (d + 1)) ≠ [] := by
      simp [setTails_eq_nil_iff, prettifyChildren_eq_nil_iff]
    rw [prettify_mk_of_ne_nil t a x (c :: cs) tl d (by simp),
      prettify_mk_of_ne_nil _ _ _ _ _ _ hne,
      prettifyChildren_setTails, hch, setTails_setTails]

theorem prettifyChildren_idem : (l : List Elem) → (d : Nat) →
    prettifyChildren (prettifyChildren l d) d = prettifyChildren l d
  | [], _ => rfl
  | c :: cs, d => by
    simp [prettifyChildren, prettify_idem c d, prettifyChildren_idem cs d]

end

/-- C4: serialization is idempotent — rendering a built descriptor tree through
export's prettify-and-serialize step a second time (export leaves the stored
tree mutated to its prettified form) produces the same byte string as the
first rendering. -/
theorem export_render_idem (cfg : NfoConfig) (episode : EpisodeEntity) :
    exportStr (prettify (buildNfo cfg episode) 0) =
      exportStr (buildNfo cfg episode) := by
  simp [exportStr, tostring, prettify_idem]

/-! ## Theorems: the exported text's shape -/

theorem nlind_zero : nlind 0 = "\n" := rfl

theorem nlind_one : nlind 1 = "\n  " := rfl

theorem escapeCdata_empty : escapeCdata "" = "" := rfl

theorem escapeCdata_nl : escapeCdata "\n" = "\n" := rfl

theorem escapeCdata_nlind1 : escapeCdata "\n  " = "\n  " := rfl

theorem serializeElem_withTail_leaf (c : Elem) (s : String)
    (h : c.children = []) :
    serializeElem (withTail c (some s)) = leafLine c ++ escapeCdata s := by
  cases c with
  | mk t a x cs tl =>
    cases cs with
    | nil =>
      simp [withTail, serializeElem, serializeChildren, leafLine, Elem.tag,
        Elem.attrib, Elem.text, String.append_assoc]
    | cons c2 cs2 => simp [Elem.children] at h

theorem prettify_leaf (c : Elem) (d : Nat) (h : c.children = []) :
    prettify c d = c := by
  cases c with
  | mk t a x cs tl =>
    cases cs with
    | nil => rfl
    | cons c2 cs2 => simp [Elem.children] at h

theorem prettifyChildren_leaves (l : List Elem) (d : Nat)
    (h : ∀ c ∈ l, c.children = []) : prettifyChildren l d = l := by
  induction l with
  | nil => rfl
  | cons c cs ih =>
    simp only [prettifyChildren]
    rw [prettify_leaf c d (h c (by simp)), ih (fun x hx => h x (by simp [hx]))]

theorem strMerge (a b c : String) (h : a ++ b = c) (X : String) :
    a ++ (b ++ X) = c ++ X := by
  rw [← String.append_assoc, h]

theorem serializeChildren_setTails (cs : List Elem) (k : String) :
    cs ≠ [] → (∀ c ∈ cs, c.children = []) →
    "\n  " ++ (serializeChildren (setTails 0 cs) ++ k) =
      cs.foldr (fun c acc => "\n  " ++ (leafLine c ++ acc)) ("\n" ++ k) := by
  induction cs with
  | nil => intro h; cases h rfl
  | cons c cs ih =>
    intro _ hleaf
    cases cs with
    | nil =>
      rw [show setTails 0 [c] = [withTail c (some (nlind 0))] from rfl]
      simp only [serializeChildren, nlind_zero,
        serializeElem_withTail_leaf c "\n" (hleaf c (by simp)),
        escapeCdata_nl, List.foldr]
      simp [String.append_assoc]
    | cons c2 cs2 =>
      rw [show setTails 0 (c :: c2 :: cs2) =
        withTail c (some (nlind 1)) :: setTails 0 (c2 :: cs2) from rfl]
      rw [List.foldr_cons, ← ih (by simp) (fun x hx => hleaf x (by simp [hx]))]
      simp only [serializeChildren, nlind_one,
        serializeElem_withTail_leaf c "\n  " (hleaf c (by simp)),
        escapeCdata_nlind1]
      simp [String.append_assoc]

theorem tostring_prettify_leaves (t : String) (cs : List Elem)
    (hne : cs ≠ []) (hleaf : ∀ c ∈ cs, c.children = []) :
    tostring (prettify (Elem.mk t [] none cs none) 0) =
      "<" ++ (t ++ (">" ++
        cs.foldr (fun c acc => "\n  " ++ (leafLine c ++ acc))
          ("\n" ++ ("</" ++ (t ++ ">"))))) := by
  rw [tostring, prettify_mk_of_ne_nil t [] none cs none 0 hne,
    prettifyChildren_leaves cs 1 hleaf]
  show "<" ++ t ++ serializeAttribs [] ++ ">"
      ++ escapeCdata ((some (nlind 1)).getD "")
      ++ serializeChildren (setTails 0 cs)
      ++ "</" ++ t ++ ">" ++ escapeCdata (Option.getD none "") = _
  rw [show serializeAttribs [] = "" from rfl]
  simp only [Option.getD, nlind_one, escapeCdata_nlind1, escapeCdata_empty]
  rw [← serializeChildren_setTails cs ("</" ++ (t ++ ">")) hne hleaf]
  simp [String.append_assoc]
  rw [strMerge ">" "\n  " ">\n  " rfl]

theorem buildNfoChildren_ne_nil (cfg : NfoConfig) (episode : EpisodeEntity) :
    buildNfoChildren cfg episode ≠ [] := by
  simp [buildNfoChildren]

theorem buildNfoChildren_leaves (cfg : NfoConfig) (episode : EpisodeEntity) :
    ∀ c ∈ buildNfoChildren cfg episode, c.children = [] := by
  intro c hc
  simp only [buildNfoChildren, List.append_assoc, List.mem_append,
    List.mem_singleton] at hc
  rcases hc with rfl | hc | hc | rfl | hc
  · rfl
  · split at hc
    · simp at hc; subst hc; rfl
    · simp at hc
  · split at hc
    · simp at hc; subst hc; rfl
    · simp at hc
  · rfl
  · split at hc
    · obtain ⟨el, -, rfl⟩ := List.mem_map.mp hc; rfl
    · simp at hc

/-- C1: for every built descriptor tree, the text export produces is exactly
the fixed XML declaration line, a newline, then the element tree with the
root's open tag on its own line, every child element on its own line indented
two spaces and rendered as an explicit open/close tag pair (never
self-closing), and the root's close tag on its own line. -/
theorem export_shape (cfg : NfoConfig) (episode : EpisodeEntity) :
    exportStr (buildNfo cfg episode) =
      "<?xml version=\"1.0\" encoding=\"UTF-8\" standalone=\"yes\" ?>" ++ ("\n"
        ++ ("<episodedetails>"
        ++ (buildNfoChildren cfg episode).foldr
            (fun c acc => "\n  " ++ (leafLine c ++ acc)) "\n</episodedetails>")) := by
  rw [exportStr, buildNfo,
    tostring_prettify_leaves "episodedetails" (buildNfoChildren cfg episode)
      (buildNfoChildren_ne_nil cfg episode)
      (buildNfoChildren_leaves cfg episode)]
  rw [show DECLARATION =
    "<?xml version=\"1.0\" encoding=\"UTF-8\" standalone=\"yes\" ?>" from rfl]
  simp [String.append_assoc]
  rw [strMerge "<" "episodedetails" "<episodedetails" rfl,
    strMerge "<episodedetails" ">" "<episodedetails>" rfl,
    strMerge "<?xml version=\"1.0\" encoding=\"UTF-8\" standalone=\"yes\" ?>"
      "\n" "<?xml version=\"1.0\" encoding=\"UTF-8\" standalone=\"yes\" ?>\n" rfl]

/-! ## Theorems: identifier derivation -/

theorem nthHex_mem (n : Nat) : nthHex n ∈ hexChars := by
  show hexChars.getD (n % 16) '0' ∈ hexChars
  have h16 : ∀ k, k < 16 → hexChars.getD k '0' ∈ hexChars := by decide
  exact h16 (n % 16) (Nat.mod_lt _ (by norm_num))

theorem md5Bytes_length (msg : List Nat) : (md5Bytes msg).length = 16 := by
  simp [md5Bytes, le4]

theorem flatMap_toHex2_length (l : List Nat) :
    (l.flatMap toHex2).length = 2 * l.length := by
  induction l with
  | nil => rfl
  | cons b bs ih => simp [toHex2, ih]; omega

theorem md5Hexdigest_length (bs : List Nat) : (md5Hexdigest bs).length = 32 := by
  show ((md5Bytes bs).flatMap toHex2).length = 32
  rw [flatMap_toHex2_length, md5Bytes_length]

theorem mem_md5Hexdigest (bs : List Nat) (c : Char)
    (hc : c ∈ (md5Hexdigest bs).toList) : c ∈ hexChars := by
  have hc2 : c ∈ (md5Bytes bs).flatMap toHex2 := hc
  obtain ⟨b, -, hcb⟩ := List.mem_flatMap.mp hc2
  simp only [toHex2, List.mem_cons, List.mem_singleton, List.not_mem_nil,
    or_false] at hcb
  rcases hcb with rfl | rfl <;> exact nthHex_mem _

/-- C6: generateId returns the lowercase hexadecimal digest (32 hex digits,
so a 128-bit hash; the definition is MD5) of the UTF-8 bytes of the
policy-selected source string: base name + extension under 'filename', the
directory joined with base name + extension under 'path', and the absolute
form of the path variant under 'absolute'.  It is a total function of its
arguments (deterministic, never failing). -/
theorem generateId_spec (cwd dirName fileRoot fileExtension source : String) :
    generateId cwd dirName fileRoot fileExtension "filename" =
        md5Hexdigest (utf8Encode (fileRoot ++ fileExtension)) ∧
    generateId cwd dirName fileRoot fileExtension "path" =
        md5Hexdigest (utf8Encode (ospathJoin dirName (fileRoot ++ fileExtension))) ∧
    generateId cwd dirName fileRoot fileExtension "absolute" =
        md5Hexdigest (utf8Encode
          (abspath cwd (ospathJoin dirName (fileRoot ++ fileExtension)))) ∧
    (generateId cwd dirName fileRoot fileExtension source).length = 32 ∧
    ∀ c ∈ (generateId cwd dirName fileRoot fileExtension source).toList,
      c ∈ hexChars := by
  have hpf : ("path" : String) ≠ "filename" := by decide
  have hpa : ("path" : String) ≠ "absolute" := by decide
  have haf : ("absolute" : String) ≠ "filename" := by decide
  refine ⟨by simp [generateId], by simp [generateId, hpf, hpa],
    by simp [generateId, haf], ?_, ?_⟩
  · simp only [generateId]
    exact md5Hexdigest_length _
  · intro c hc
    simp only [generateId] at hc
    exact mem_md5Hexdigest _ _ hc

/-- C9 (implicit): any identifier-source policy other than 'filename' and
'absolute' — unrecognized values included — falls into the else branch and
behaves exactly like 'path': the hash of the directory joined with base name
+ extension, with no rejection of the unknown policy. -/
theorem generateId_default_policy (cwd dirName fileRoot fileExtension p : String)
    (h1 : p ≠ "filename") (h2 : p ≠ "absolute") :
    generateId cwd dirName fileRoot fileExtension p =
      generateId cwd dirName fileRoot fileExtension "path" := by
  have hpf : ("path" : String) ≠ "filename" := by decide
  have hpa : ("path" : String) ≠ "absolute" := by decide
  simp [generateId, h1, h2, hpf, hpa]

/-- C9 witness: the unrecognized policy string "bogus" yields the same
identifier as the 'path' policy on concrete inputs. -/
theorem generateId_default_policy_witness :
    generateId "." "./Season 1" "episode01" ".mkv" "bogus" =
      generateId "." "./Season 1" "episode01" ".mkv" "path" :=
  generateId_default_policy "." "./Season 1" "episode01" ".mkv" "bogus"
    (by decide) (by decide)

/-! ## Theorems: the empty-element emission policy -/

/-- C7: for a record with no season number, the built document contains a
season element with empty text exactly when emitEmptyElements is true, and no
element tagged season at all when it is false; likewise for the episode
element and a missing episode number. -/
theorem empty_element_policy (cfg : NfoConfig) (episode : EpisodeEntity) :
    (episode.seasonNumber = none →
      (cfg.emptyElements = true →
        Elem.mk "season" [] (some "") [] none ∈ buildNfoChildren cfg episode) ∧
      (cfg.emptyElements = false →
        ∀ c ∈ buildNfoChildren cfg episode, c.tag ≠ "season")) ∧
    (episode.episodeNumber = none →
      (cfg.emptyElements = true →
        Elem.mk "episode" [] (some "") [] none ∈ buildNfoChildren cfg episode) ∧
      (cfg.emptyElements = false →
        ∀ c ∈ buildNfoChildren cfg episode, c.tag ≠ "episode")) := by
  constructor
  · intro hs
    constructor
    · intro hemp
      simp [buildNfoChildren, hs, hemp]
    · intro hemp c hc
      simp only [buildNfoChildren, hs, hemp, Option.isSome_none,
        Bool.false_or, List.append_assoc, List.mem_append,
        List.mem_singleton, if_false, Bool.false_eq_true,
        List.not_mem_nil, or_false, false_or] at hc
      rcases hc with rfl | hc | rfl
      · simp [Elem.tag]
      · split at hc
        · simp at hc; subst hc; simp [Elem.tag]
        · simp at hc
      · simp [Elem.tag]
  · intro he
    constructor
    · intro hemp
      simp [buildNfoChildren, he, hemp]
    · intro hemp c hc
      simp only [buildNfoChildren, he, hemp, Option.isSome_none,
        Bool.false_or, List.append_assoc, List.mem_append,
        List.mem_singleton, if_false, Bool.false_eq_true,
        List.not_mem_nil, or_false, false_or] at hc
      rcases hc with rfl | hc | rfl
      · simp [Elem.tag]
      · split at hc
        · simp at hc; subst hc; simp [Elem.tag]
        · simp at hc
      · simp [Elem.tag]

/-- C7 witness: with no season number and the policy on, the built children
contain season with empty text; with the policy off they contain no season
element. -/
theorem empty_element_policy_witness :
    (Elem.mk "season" [] (some "") [] none ∈
      buildNfoChildren ⟨".", "./Season 1", "episode01", ".mkv", true,
        ["plot", "credits", "aired", "userrating"], "path", "hashpath"⟩
        ⟨some "Pilot", none, none⟩) ∧
    (∀ c ∈ buildNfoChildren ⟨".", "./Season 1", "episode01", ".mkv", false,
        ["plot", "credits", "aired", "userrating"], "path", "hashpath"⟩
        ⟨some "Pilot", none, none⟩, c.tag ≠ "season") :=
  ⟨((empty_element_policy _ _).1 rfl).1 rfl,
   ((empty_element_policy _ _).1 rfl).2 rfl⟩

/-! ## Theorems: the driver loop's bookkeeping -/

/-- C8: when the directory listing already holds the expected descriptor name
and overwrite is off, the loop records the descriptor path as skipped and
does nothing else: no descriptor is built or written, the written list is
untouched, and the outcome is the skip. -/
theorem skip_on_existing (rc : RunConfig) (root : String) (files : List String)
    (dirSeason : Option Nat) (file : String) (writeOk : Bool) (st : RunState)
    (hext : ¬ (splitext file).2.length = 0)
    (hnfo : ¬ lowerStr (splitext file).2 = EXTENSION)
    (hcont : lowerStr (splitext file).2 ∈ containers)
    (hover : rc.overwrite = false)
    (hex : (splitext file).1 ++ EXTENSION ∈ files) :
    processFile rc root files dirSeason file writeOk st =
      ({ st with skipped :=
          st.skipped ++ [ospathJoin root ((splitext file).1 ++ EXTENSION)] },
       .alreadyExists) := by
  simp only [processFile, NfoConfig.basename, NfoConfig.path]
  rw [if_neg hext, if_neg hnfo, if_neg (not_not_intro hcont),
    if_pos ⟨by simp [hover], hex⟩]

/-- C8 witness: a directory listing `episode01.mkv` and `episode01.nfo`, with
overwrite off, skips the video and records its descriptor path as skipped,
writing nothing. -/
theorem skip_on_existing_witness :
    processFile ⟨".", false, true, ["plot", "credits", "aired", "userrating"],
        "path", "hashpath"⟩ "." ["episode01.mkv", "episode01.nfo"] none
        "episode01.mkv" true ⟨0, [], []⟩ =
      (⟨0, ["./episode01.nfo"], []⟩, .alreadyExists) :=
  skip_on_existing _ "." ["episode01.mkv", "episode01.nfo"] none
    "episode01.mkv" true ⟨0, [], []⟩ (by decide) (by decide) (by decide) rfl
    (by decide)

/-- C10 (implicit): when a descriptor write succeeds, the path is appended to
the written list twice — once inside export after the write, once more by the
loop after export returns — so each successfully written descriptor
contributes two entries to the reported written count. -/
theorem written_twice_on_success (rc : RunConfig) (root : String)
    (files : List String) (dirSeason : Option Nat) (file : String)
    (st : RunState)
    (hext : ¬ (splitext file).2.length = 0)
    (hnfo : ¬ lowerStr (splitext file).2 = EXTENSION)
    (hcont : lowerStr (splitext file).2 ∈ containers)
    (hskip : ¬ (¬ rc.overwrite ∧ (splitext file).1 ++ EXTENSION ∈ files)) :
    (processFile rc root files dirSeason file true st).1.written =
      st.written ++ [ospathJoin root ((splitext file).1 ++ EXTENSION),
        ospathJoin root ((splitext file).1 ++ EXTENSION)] ∧
    (processFile rc root files dirSeason file true st).1.written.length =
      st.written.length + 2 := by
  simp only [processFile, NfoConfig.basename, NfoConfig.path]
  rw [if_neg hext, if_neg hnfo, if_neg (not_not_intro hcont), if_neg hskip]
  refine ⟨by simp, by simp⟩

/-- C10 witness: processing `episode01.mkv` with a succeeding write leaves the
descriptor path in the written list twice and a written count of 2. -/
theorem written_twice_on_success_witness :
    (processFile ⟨".", false, true, ["plot", "credits", "aired", "userrating"],
        "path", "hashpath"⟩ "." ["episode01.mkv"] none "episode01.mkv" true
        ⟨0, [], []⟩).1.written =
      ["./episode01.nfo", "./episode01.nfo"] ∧
    (processFile ⟨".", false, true, ["plot", "credits", "aired", "userrating"],
        "path", "hashpath"⟩ "." ["episode01.mkv"] none "episode01.mkv" true
        ⟨0, [], []⟩).1.written.length = 2 :=
  written_twice_on_success _ "." ["episode01.mkv"] none "episode01.mkv"
    ⟨0, [], []⟩ (by decide) (by decide) (by decide) (by decide)

/-- C5 (code bug): on a write failure export swallows the IOError (no raise;
the loop continues and counts the file), but the loop body still appends the
descriptor path to the written list once — the failed write IS recorded as
written, contradicting the claim that it never is. -/
theorem failed_write_recorded (rc : RunConfig) (root : String)
    (files : List String) (dirSeason : Option Nat) (file : String)
    (st : RunState)
    (hext : ¬ (splitext file).2.length = 0)
    (hnfo : ¬ lowerStr (splitext file).2 = EXTENSION)
    (hcont : lowerStr (splitext file).2 ∈ containers)
    (hskip : ¬ (¬ rc.overwrite ∧ (splitext file).1 ++ EXTENSION ∈ files)) :
    (processFile rc root files dirSeason file false st).1.written =
      st.written ++ [ospathJoin root ((splitext file).1 ++ EXTENSION)] ∧
    (processFile rc root files dirSeason file false st).1.total =
      st.total + 1 ∧
    (processFile rc root files dirSeason file false st).1.skipped =
      st.skipped := by
  simp only [processFile, NfoConfig.basename, NfoConfig.path]
  rw [if_neg hext, if_neg hnfo, if_neg (not_not_intro hcont), if_neg hskip]
  refine ⟨by simp, by simp, by simp⟩

/-- C5 witness: a failing write of `episode01.nfo` still lands the path in the
written list (while the loop continues, counting the file and skipping
nothing). -/
theorem failed_write_recorded_witness :
    (processFile ⟨".", false, true, ["plot", "credits", "aired", "userrating"],
        "path", "hashpath"⟩ "." ["episode01.mkv"] none "episode01.mkv" false
        ⟨0, [], []⟩).1.written = ["./episode01.nfo"] ∧
    (processFile ⟨".", false, true, ["plot", "credits", "aired", "userrating"],
        "path", "hashpath"⟩ "." ["episode01.mkv"] none "episode01.mkv" false
        ⟨0, [], []⟩).1.total = 1 ∧
    (processFile ⟨".", false, true, ["plot", "credits", "aired", "userrating"],
        "path", "hashpath"⟩ "." ["episode01.mkv"] none "episode01.mkv" false
        ⟨0, [], []⟩).1.skipped = [] :=
  failed_write_recorded _ "." ["episode01.mkv"] none "episode01.mkv"
    ⟨0, [], []⟩ (by decide) (by decide) (by decide) (by decide)

/-! ## Theorems: the name classifiers on concrete inputs -/

/-- C2 (code bug): the third file pattern is applied with regex.match, so the
classic SxxEyy form is recognized only at the start of the string.  On
"Name.S01E02.Title" — one of that pattern's own comment examples — no pattern
matches and the episode number stays unresolved with the default title, while
the same form at the start of the string does resolve season, episode and
title. -/
theorem sxxeyy_only_at_start :
    FileParser.parse "Name.S01E02.Title" (some "Name.S01E02.Title") none =
      ⟨none, none, some "Name.S01E02.Title"⟩ ∧
    FileParser.parse "s01e02 - Title" (some "s01e02 - Title") none =
      ⟨some 1, some 2, some "Title"⟩ := by decide

/-- C3 (code bug): DirectoryParser resolves "Specials" to season 0 and leaves
"Extras" unresolved as claimed, but "Season 02" is also left unresolved — the
trailing-integer pattern is anchored at the start of the string by
regex.match and requires a non-word character followed by a further
whitespace character, so it can never match "Season 02" (claimed to resolve
to season 2). -/
theorem directory_season_inference :
    DirectoryParser.parse "Season 02" = none ∧
    DirectoryParser.parse "Specials" = some 0 ∧
    DirectoryParser.parse "Extras" = none := by decide

/-! ## Additional checks of the embedding on concrete names -/

theorem dirparse_leading_integer : DirectoryParser.parse "01. Description" = some 1 := by
  decide

theorem fileparse_first_match_wins :
    FileParser.parse "1x01. Pilot" (some "1x01. Pilot") none =
      ⟨some 1, some 1, some "Pilot"⟩ := by decide

theorem fileparse_season_overrides_default :
    FileParser.parse "3x15 - Finale" (some "3x15 - Finale") (some 1) =
      ⟨some 3, some 15, some "Finale"⟩ := by decide

theorem splitext_checks :
    splitext "episode01.mkv" = ("episode01", ".mkv") ∧
    splitext ".bashrc" = (".bashrc", "") ∧
    splitext "readme" = ("readme", "") ∧
    splitext "cover.jpg" = ("cover", ".jpg") := by decide

theorem path_helper_checks :
    ospathJoin "." "episode01.nfo" = "./episode01.nfo" ∧
    normpath "./a/../b" = "b" ∧
    abspath "/home/user" "./x/y.mkv" = "/home/user/x/y.mkv" := by decide
